import Mathlib

/-!
Shallow embedding of `pytest_flake8.py` (pytest-flake8 plugin) together with
proofs about its two non-trivial behaviours: the ignore-pattern matcher
(`Ignorer`) and the mtime-based skip cache of `Flake8Item`.

Conventions of the embedding:
* Python strings are Lean `String`s; whitespace splitting, comment stripping
  and the `[EW]\d\d\d` regex are implemented over `List Char`.
* Python values that flow through the pytest cache are modelled by `PyVal`,
  which keeps the `tuple` / `list` distinction because Python equality (and
  hence the `old == [mtime, ignore]` test in `Flake8Item.setup`) distinguishes
  the two shapes.
* The external glob matcher `py.path.local.fnmatch` is a collaborator, not
  code of this repository; theorems about `Ignorer.__call__` are parametric
  in the match function, and a concrete executable model `pyFnmatch` is
  supplied for the end-to-end scenarios.
-/

namespace PytestFlake8

/-! ### Python string helpers -/

/-- Tokens of a Python `str.split()` with no separator argument: split on runs
of whitespace, dropping empty pieces. Implemented structurally over the
character list; `acc` is the current token being read, in reverse. -/
def splitWSAux : List Char → List Char → List String
  | [], acc => if acc.isEmpty then [] else [String.mk acc.reverse]
  | c :: cs, acc =>
    if c.isWhitespace then
      if acc.isEmpty then splitWSAux cs []
      else String.mk acc.reverse :: splitWSAux cs []
    else splitWSAux cs (c :: acc)

/-- Python `s.split()` (whitespace tokenisation). -/
def pySplitWS (s : String) : List String := splitWSAux s.toList []

/-- Lines 172-174 of the source: `i = line.find("#"); line = line[:i]` —
everything before the first `#`, or the whole line when there is none. -/
def stripComment (s : String) : String :=
  String.mk (s.toList.takeWhile (fun c => c ≠ '#'))

/-- The default `coderex=re.compile(r"[EW]\d\d\d")` applied with `.match`,
i.e. an anchored-at-the-start search: the string begins with `E` or `W`
followed by three digits. -/
def coderexMatch (s : String) : Bool :=
  match s.toList with
  | c1 :: c2 :: c3 :: c4 :: _ =>
    (c1 = 'E' || c1 = 'W') && c2.isDigit && c3.isDigit && c4.isDigit
  | _ => false

/-! ### Ignorer -/

/-- One parsed rule of `Ignorer.ignores`: `(glob, ign)` where `glob = none`
means "applies to every path" and `ign = none` is the suppress-all sentinel
(produced by the literal marker `ALL`). -/
abbrev IgnoreRule := Option String × Option (List String)

/-- Line 184-185 of the source: when the platform separator differs from `/`
and the glob contains `/`, every `/` is replaced by the separator string. -/
def normGlob (sep : String) (g : String) : String :=
  if sep ≠ "/" && g.toList.contains '/' then
    String.mk ((g.toList.map (fun c => if c = '/' then sep.toList else [c])).flatten)
  else g

/-- `Ignorer.__init__`, one configuration line (lines 171-186 of the source).
`sep` is the platform `os.sep`. The `match` reproduces
`glob, ign = line.split(None, 1)` with its `ValueError` fallback and the
`coderex.match(glob)` test that demotes a code-shaped first token to
not-a-glob. -/
def parseLine (sep : String) (line : String) : IgnoreRule :=
  let stripped := stripComment line
  let toks := pySplitWS stripped
  let gi : Option String × List String :=
    match toks with
    | [] => (none, [])
    | [t] => (none, [t])
    | g :: rest => if coderexMatch g then (none, g :: rest) else (some g, rest)
  let ign : Option (List String) := if gi.2.contains "ALL" then none else some gi.2
  let glob : Option String := gi.1.map (normGlob sep)
  (glob, ign)

/-- `Ignorer.__init__` over the whole `flake8-ignore` linelist. -/
def Ignorer.init (sep : String) (ignorelines : List String) : List IgnoreRule :=
  ignorelines.map (parseLine sep)

/-- `not glob or path.fnmatch(glob)` (line 191): a rule applies when its glob
is absent or the external matcher `fm` accepts the path. -/
def globApplies (fm : String → String → Bool) (path : String) : Option String → Bool
  | none => true
  | some g => fm path g

/-- The loop of `Ignorer.__call__` (lines 188-195): `acc` is the list `l`
accumulated so far; a matching suppress-all rule returns `none` (Python
`None`) immediately. -/
def callAux (fm : String → String → Bool) (path : String) :
    List IgnoreRule → List String → Option (List String)
  | [], acc => some acc
  | (glob, ign) :: rest, acc =>
    if globApplies fm path glob then
      match ign with
      | none => none
      | some codes => callAux fm path rest (acc ++ codes)
    else callAux fm path rest acc

/-- `Ignorer.__call__(path)`: `none` is the skip sentinel, `some codes` the
accumulated ignore-codes list. -/
def Ignorer.call (fm : String → String → Bool) (rules : List IgnoreRule)
    (path : String) : Option (List String) :=
  callAux fm path rules []

/-! ### Model of the external glob matcher -/

/-- Fuel-indexed shell-style pattern match (`*` and `?`), the core of the
external `fnmatch` collaborator. Fuel makes the recursion structural; with
fuel at least `p.length + s.length + 1` it never runs out. -/
def fnmatchFuel : Nat → List Char → List Char → Bool
  | 0, _, _ => false
  | fuel + 1, p, s =>
    match p, s with
    | [], [] => true
    | [], _ :: _ => false
    | '*' :: ps, [] => fnmatchFuel fuel ps []
    | '*' :: ps, c :: cs =>
      fnmatchFuel fuel ps (c :: cs) || fnmatchFuel fuel ('*' :: ps) cs
    | _ :: _, [] => false
    | p1 :: ps, c :: cs => (p1 = '?' || p1 = c) && fnmatchFuel fuel ps cs

/-- The final path component of a path string. -/
def basename (p : String) : String :=
  String.mk ((p.toList.reverse.takeWhile (fun c => c ≠ '/')).reverse)

/-- Model of the external `py.path.local.fnmatch`: a pattern without a path
separator is matched against the path's basename, one with a separator
against the whole path string. -/
def pyFnmatch (path : String) (pattern : String) : Bool :=
  let target := if pattern.toList.contains '/' then path else basename path
  fnmatchFuel (pattern.length + target.length + 1) pattern.toList target.toList

/-! ### Python values flowing through the pytest cache

`Flake8Item.runtest` stores `(mtime, flake8ignore)` — a tuple — under the
path key, while `Flake8Item.setup` compares the stored entry against the
list `[mtime, flake8ignore]` and uses the tuple `(0, [])` as the default for
a missing key. Python equality never identifies a tuple with a list, so the
embedding keeps both shapes. -/

/-- A Python value as it appears in the `flake8/mtimes` cache mapping. -/
inductive PyVal where
  | int : Int → PyVal
  | str : String → PyVal
  | list : List PyVal → PyVal
  | tuple : List PyVal → PyVal

mutual

/-- Structural (= Python `==` on these shapes) equality test; in particular a
`tuple` never equals a `list`, exactly as in Python. -/
def PyVal.decEq : (a b : PyVal) → Decidable (a = b)
  | .int a, .int b => decidable_of_iff (a = b) (by simp)
  | .str a, .str b => decidable_of_iff (a = b) (by simp)
  | .list xs, .list ys =>
    match PyVal.decEqList xs ys with
    | .isTrue h => .isTrue (by rw [h])
    | .isFalse h => .isFalse (by simp [h])
  | .tuple xs, .tuple ys =>
    match PyVal.decEqList xs ys with
    | .isTrue h => .isTrue (by rw [h])
    | .isFalse h => .isFalse (by simp [h])
  | .int _, .str _ => .isFalse (by simp)
  | .int _, .list _ => .isFalse (by simp)
  | .int _, .tuple _ => .isFalse (by simp)
  | .str _, .int _ => .isFalse (by simp)
  | .str _, .list _ => .isFalse (by simp)
  | .str _, .tuple _ => .isFalse (by simp)
  | .list _, .int _ => .isFalse (by simp)
  | .list _, .str _ => .isFalse (by simp)
  | .list _, .tuple _ => .isFalse (by simp)
  | .tuple _, .int _ => .isFalse (by simp)
  | .tuple _, .str _ => .isFalse (by simp)
  | .tuple _, .list _ => .isFalse (by simp)

/-- Elementwise equality of value lists. -/
def PyVal.decEqList : (xs ys : List PyVal) → Decidable (xs = ys)
  | [], [] => .isTrue rfl
  | [], _ :: _ => .isFalse (by simp)
  | _ :: _, [] => .isFalse (by simp)
  | x :: xs, y :: ys =>
    match PyVal.decEq x y, PyVal.decEqList xs ys with
    | .isTrue h1, .isTrue h2 => .isTrue (by rw [h1, h2])
    | .isFalse h1, _ => .isFalse (by simp [h1])
    | _, .isFalse h2 => .isFalse (by simp [h2])

end

instance : DecidableEq PyVal := PyVal.decEq

/-- The ignore-codes list as a Python value. -/
def encodeIgnore (ign : List String) : PyVal := .list (ign.map .str)

/-- The in-memory `config._flake8mtimes` mapping, keyed by `str(self.fspath)`. -/
abbrev CacheMap := List (String × PyVal)

/-- `flake8mtimes.get(key, default)`. -/
def cacheGet (cache : CacheMap) (key : String) (dflt : PyVal) : PyVal :=
  match cache.lookup key with
  | some v => v
  | none => dflt

/-- `flake8mtimes[key] = v` (replace or append). -/
def cacheSet (cache : CacheMap) (key : String) (v : PyVal) : CacheMap :=
  match cache with
  | [] => [(key, v)]
  | (k, w) :: rest =>
    if k = key then (k, v) :: rest else (k, w) :: cacheSet rest key v

mutual

/-- JSON round-trip performed by `config.cache.set` at `pytest_unconfigure`
and `config.cache.get` at the next run's `pytest_configure`: JSON has no
tuples, so a tuple is serialised as an array and read back as a list. -/
def jsonRT : PyVal → PyVal
  | .int n => .int n
  | .str s => .str s
  | .list xs => .list (jsonRTList xs)
  | .tuple xs => .list (jsonRTList xs)

/-- `jsonRT` mapped over a Python sequence's elements. -/
def jsonRTList : List PyVal → List PyVal
  | [] => []
  | x :: xs => jsonRT x :: jsonRTList xs

end

/-- `pytest_unconfigure` followed by the next `pytest_configure`: the whole
mapping goes through the JSON round-trip. -/
def flushReload (cache : CacheMap) : CacheMap :=
  cache.map (fun kv => (kv.1, jsonRT kv.2))

/-! ### Flake8Item lifecycle -/

/-- The test of `Flake8Item.setup` (lines 116-124): look up the entry for
this path with default `(0, [])` and skip exactly when it equals the list
`[self._flake8mtime, self.flake8ignore]`. -/
def setup_skips (cache : CacheMap) (path : String) (mtime : Int)
    (flake8ignore : List String) : Bool :=
  let old := cacheGet cache path (.tuple [.int 0, .list []])
  old == .list [.int mtime, encodeIgnore flake8ignore]

/-- The outcome of one engine invocation, as captured by `runtest`:
redirected standard output, redirected standard error, and
`check_file`'s return value `app.result_count`. -/
structure CheckResult where
  out : String
  err : String
  count : Nat
deriving DecidableEq

/-- `Flake8Item.runtest` after the engine call (lines 144-150): a nonzero
violation count raises `Flake8Error(out, err)`; a zero count stores the
tuple `(mtime, flake8ignore)` for this path. -/
def runtest (cache : CacheMap) (path : String) (mtime : Int)
    (flake8ignore : List String) (res : CheckResult) :
    Except (String × String) CacheMap :=
  if res.count ≠ 0 then .error (res.out, res.err)
  else .ok (cacheSet cache path (.tuple [.int mtime, encodeIgnore flake8ignore]))

/-- Terminal state of one `Flake8Item` in one run. -/
inductive Outcome where
  | skipped
  | passed
  | failed (payload : String × String)
deriving DecidableEq

/-- Result of pushing one item through setup and (when not skipped) runtest:
the cache afterwards, whether the linting engine was actually invoked, and
the terminal state. -/
structure RunResult where
  cache : CacheMap
  linted : Bool
  outcome : Outcome
deriving DecidableEq

/-- One item's life in one run: `setup` (lines 116-124) then, unless it
skipped, `runtest` (lines 126-150) with `res` standing for what the engine
produces on this file. -/
def processFile (cache : CacheMap) (path : String) (mtime : Int)
    (flake8ignore : List String) (res : CheckResult) : RunResult :=
  if setup_skips cache path mtime flake8ignore then
    ⟨cache, false, .skipped⟩
  else
    match runtest cache path mtime flake8ignore res with
    | .error payload => ⟨cache, true, .failed payload⟩
    | .ok cache' => ⟨cache', true, .passed⟩

/-- The exception value reaching `Flake8Item.repr_failure`. -/
inductive ExcInfo where
  | flake8Error (out err : String)
  | other (rendered : String)
deriving DecidableEq

/-- `Flake8Item.repr_failure` (lines 152-155): a `Flake8Error` renders as
`excinfo.value.args[0]` — the captured standard output only; anything else
falls through to the superclass rendering. -/
def repr_failure : ExcInfo → String
  | .flake8Error out _ => out
  | .other rendered => rendered

/-! ### check_file option merging -/

/-- The engine's parsed option state; only the `ignore` option matters to
the claims. Stands for `app.options` after `parse_configuration_and_cli`. -/
structure AppOptions where
  ignore : List String
deriving DecidableEq

/-- Lines 230-231 of the source: `if flake8ignore: app.options.ignore =
flake8ignore`. Python truthiness: an empty list does not override. -/
def check_file_ignore (opts : AppOptions) (flake8ignore : List String) :
    AppOptions :=
  if flake8ignore ≠ [] then { opts with ignore := flake8ignore } else opts

/-! ### pytest_collect_file -/

/-- The two views of the py.path object that `pytest_collect_file` consults:
`toStr` is `str(path)` and `ext` the externally computed `path.ext`
(extension including the dot). -/
structure PyPath where
  toStr : String
  ext : String
deriving DecidableEq

/-- The configuration state that `pytest_collect_file` reads: the
`--flake8` flag, `config._flake8exts` and the compiled `config._flake8ignore`
rules. -/
structure CollectConfig where
  flake8 : Bool
  exts : List String
  rules : List IgnoreRule

/-- The data placed on a produced `Flake8Item` (both the `from_parent` and
the direct-constructor branch store the same fields). -/
structure Flake8ItemData where
  fspath : String
  flake8ignore : List String
deriving DecidableEq

/-- `pytest_collect_file` (lines 64-88): produce an item only when the
flag is on, the extension is configured, and the ignore matcher does not
return the skip sentinel (`flake8ignore is not None`). -/
def pytest_collect_file (fm : String → String → Bool) (cfg : CollectConfig)
    (path : PyPath) : Option Flake8ItemData :=
  if cfg.flake8 && cfg.exts.contains path.ext then
    match Ignorer.call fm cfg.rules path.toStr with
    | none => none
    | some ign => some ⟨path.toStr, ign⟩
  else none

/-! ### Helper lemmas -/

theorem encodeIgnore_eq_iff (a b : List String) :
    encodeIgnore a = encodeIgnore b ↔ a = b := by
  constructor
  · intro h
    injection h with h'
    exact List.map_injective_iff.mpr (fun x y hxy => by injection hxy) h'
  · rintro rfl; rfl

theorem tuple_ne_list (xs ys : List PyVal) : PyVal.tuple xs ≠ PyVal.list ys :=
  fun h => PyVal.noConfusion h

theorem lookup_cacheSet (c : CacheMap) (k : String) (v : PyVal) :
    (cacheSet c k v).lookup k = some v := by
  induction c with
  | nil => simp [cacheSet, List.lookup]
  | cons kv rest ih =>
    obtain ⟨k', w⟩ := kv
    by_cases h : k' = k
    · simp [cacheSet, h, List.lookup]
    · have hb : (k == k') = false := beq_false_of_ne (fun he => h he.symm)
      simpa [cacheSet, h, List.lookup, hb] using ih

theorem lookup_flushReload (c : CacheMap) (k : String) :
    (flushReload c).lookup k = (c.lookup k).map jsonRT := by
  induction c with
  | nil => rfl
  | cons kv rest ih =>
    obtain ⟨k', w⟩ := kv
    by_cases h : k = k'
    · simp [flushReload, List.lookup, h]
    · have hb : (k == k') = false := beq_false_of_ne h
      simpa [flushReload, List.lookup, hb] using ih

theorem jsonRTList_strs (l : List String) :
    jsonRTList (l.map .str) = l.map .str := by
  induction l with
  | nil => rfl
  | cons x xs ih => simp [jsonRTList, jsonRT, ih]

theorem jsonRT_encodeIgnore (ign : List String) :
    jsonRT (encodeIgnore ign) = encodeIgnore ign := by
  simp [encodeIgnore, jsonRT, jsonRTList_strs]

/-! ### Claims about the cache lifecycle -/

/-- C1: `runtest` writes/updates the cache entry for the checked path only
when the engine reports zero violations; a nonzero count raises
`Flake8Error` carrying the captured standard output and standard error, and
the cache (hence any prior entry for that path) is left unchanged. -/
theorem runtest_cache_only_on_success
    (cache : CacheMap) (path : String) (mtime : Int) (ign : List String)
    (res : CheckResult) :
    (res.count = 0 →
      runtest cache path mtime ign res =
        .ok (cacheSet cache path (.tuple [.int mtime, encodeIgnore ign]))) ∧
    (res.count ≠ 0 →
      runtest cache path mtime ign res = .error (res.out, res.err) ∧
      (processFile cache path mtime ign res).cache = cache) := by
  constructor
  · intro h; simp [runtest, h]
  · intro h
    refine ⟨by simp [runtest, h], ?_⟩
    unfold processFile
    split
    · rfl
    · simp [runtest, h]

/-- Witness for C1 at a concrete failing check. -/
theorem runtest_cache_only_on_success_witness :
    runtest [] "a.py" 5 ["E501"] ⟨"out", "err", 2⟩ = .error ("out", "err") ∧
    (processFile [] "a.py" 5 ["E501"] ⟨"out", "err", 2⟩).cache = [] :=
  (runtest_cache_only_on_success [] "a.py" 5 ["E501"] ⟨"out", "err", 2⟩).2
    (by decide)

/-- C2: for a persisted (list-shaped) cache entry, `setup` skips the file
exactly when the stored timestamp equals the current mtime and the stored
ignore directive equals the current one; changing either forces a real
re-check. -/
theorem setup_skip_iff_unchanged
    (cache : CacheMap) (path : String) (m : Int) (codes : List String)
    (mtime : Int) (ign : List String)
    (h : cache.lookup path = some (.list [.int m, encodeIgnore codes])) :
    (setup_skips cache path mtime ign = true ↔ (m = mtime ∧ codes = ign)) := by
  unfold setup_skips cacheGet
  rw [h]
  simp only [beq_iff_eq, PyVal.list.injEq, List.cons.injEq, and_true,
    PyVal.int.injEq, encodeIgnore_eq_iff]

/-- Witness for C2: a matching entry skips, and perturbing the mtime or the
directive does not. -/
theorem setup_skip_iff_unchanged_witness :
    ([("a.py", PyVal.list [.int 5, encodeIgnore ["E501"]])].lookup "a.py" =
      some (PyVal.list [.int 5, encodeIgnore ["E501"]])) ∧
    (setup_skips [("a.py", PyVal.list [.int 5, encodeIgnore ["E501"]])]
      "a.py" 5 ["E501"] = true ↔ ((5 : Int) = 5 ∧ ["E501"] = ["E501"])) :=
  ⟨by decide,
    setup_skip_iff_unchanged [("a.py", PyVal.list [.int 5, encodeIgnore ["E501"]])]
      "a.py" 5 ["E501"] 5 ["E501"] (by decide)⟩

/-- C7: a tuple-shaped cache entry — the shape `runtest` writes in-process,
and the shape of `setup`'s default `(0, [])` for a missing key — never
passes `setup`'s equality test against the list `[mtime, flake8ignore]`, so
the file is not skipped. -/
theorem tuple_entry_is_cache_miss
    (cache : CacheMap) (path : String) (a b : PyVal) (mtime : Int)
    (ign : List String)
    (h : cache.lookup path = some (.tuple [a, b]) ∨ cache.lookup path = none) :
    setup_skips cache path mtime ign = false := by
  unfold setup_skips cacheGet
  rcases h with h | h <;> rw [h] <;>
    · simp only [beq_eq_false_iff_ne, ne_eq]
      exact fun hc => PyVal.noConfusion hc

/-- Witness for C7: the very entry written by a passing `runtest` in the
same process, and a missing entry, both fail the skip test. -/
theorem tuple_entry_is_cache_miss_witness :
    ([("a.py", PyVal.tuple [.int 5, encodeIgnore ["E501"]])].lookup "a.py" =
        some (PyVal.tuple [.int 5, encodeIgnore ["E501"]]) ∨
      ([("a.py", PyVal.tuple [.int 5, encodeIgnore ["E501"]])] :
        CacheMap).lookup "a.py" = none) ∧
    setup_skips [("a.py", PyVal.tuple [.int 5, encodeIgnore ["E501"]])]
      "a.py" 5 ["E501"] = false :=
  ⟨Or.inl (by decide),
    tuple_entry_is_cache_miss _ "a.py" (.int 5) (encodeIgnore ["E501"]) 5
      ["E501"] (Or.inl (by decide))⟩

/-- C6: a file that is really linted and passes (zero violations) in one run
is skipped — the engine is not invoked — by the next run's `setup`, which
consults the flushed-and-reloaded cache entry written by the first run,
provided the file's mtime and ignore directive are unchanged. -/
theorem lint_once_for_unchanged_passing_file
    (cache0 : CacheMap) (path : String) (mtime : Int) (ign : List String)
    (out err : String)
    (h : setup_skips cache0 path mtime ign = false) :
    (processFile cache0 path mtime ign ⟨out, err, 0⟩).linted = true ∧
    (processFile cache0 path mtime ign ⟨out, err, 0⟩).outcome = .passed ∧
    ∀ res2 : CheckResult,
      (processFile
        (flushReload (processFile cache0 path mtime ign ⟨out, err, 0⟩).cache)
        path mtime ign res2).linted = false ∧
      (processFile
        (flushReload (processFile cache0 path mtime ign ⟨out, err, 0⟩).cache)
        path mtime ign res2).outcome = .skipped := by
  have hrun : processFile cache0 path mtime ign ⟨out, err, 0⟩ =
      ⟨cacheSet cache0 path (.tuple [.int mtime, encodeIgnore ign]),
        true, .passed⟩ := by
    unfold processFile
    rw [h]
    simp [runtest]
  refine ⟨by rw [hrun], by rw [hrun], fun res2 => ?_⟩
  rw [hrun]
  have hskip : setup_skips
      (flushReload (cacheSet cache0 path (.tuple [.int mtime, encodeIgnore ign])))
      path mtime ign = true := by
    unfold setup_skips cacheGet
    rw [lookup_flushReload, lookup_cacheSet]
    simp only [Option.map_some]
    show ((jsonRT (.tuple [.int mtime, encodeIgnore ign])) ==
      PyVal.list [.int mtime, encodeIgnore ign]) = true
    rw [show jsonRT (.tuple [.int mtime, encodeIgnore ign]) =
        .list [.int mtime, encodeIgnore ign] by
      simp [jsonRT, jsonRTList, encodeIgnore, jsonRTList_strs]]
    simp
  constructor <;> · unfold processFile; rw [hskip]; simp

/-- Witness for C6: fresh cache, concrete passing first run, concrete
(would-be failing) second run that is nevertheless skipped. -/
theorem lint_once_for_unchanged_passing_file_witness :
    setup_skips [] "a.py" 5 ["E501"] = false ∧
    (processFile [] "a.py" 5 ["E501"] ⟨"", "", 0⟩).linted = true ∧
    (processFile (flushReload (processFile [] "a.py" 5 ["E501"] ⟨"", "", 0⟩).cache)
      "a.py" 5 ["E501"] ⟨"oops", "bad", 7⟩).linted = false :=
  ⟨by decide,
    (lint_once_for_unchanged_passing_file [] "a.py" 5 ["E501"] "" "" (by decide)).1,
    ((lint_once_for_unchanged_passing_file [] "a.py" 5 ["E501"] "" ""
      (by decide)).2.2 ⟨"oops", "bad", 7⟩).1⟩

/-! ### Claims about the ignore-pattern matcher -/

theorem callAux_suppress_all (fm : String → String → Bool) (path : String)
    (g : Option String) (post : List IgnoreRule) (hg : globApplies fm path g = true) :
    ∀ (pre : List IgnoreRule) (acc : List String),
      callAux fm path (pre ++ (g, none) :: post) acc = none := by
  intro pre
  induction pre with
  | nil => intro acc; simp [callAux, hg]
  | cons r rest ih =>
    intro acc
    obtain ⟨glob, ign⟩ := r
    by_cases hm : globApplies fm path glob = true
    · cases ign with
      | none => simp [callAux, hm]
      | some codes => simp [callAux, hm, ih]
    · simp [callAux, hm, ih]

/-- C3: a rule carrying the suppress-all sentinel whose glob is absent or
matches the path makes `Ignorer.__call__` return the skip sentinel `none`,
whatever rules precede it and irrespective of the rules after it (they are
never consulted); in particular the configuration line `"ALL"` yields the
skip sentinel for every path. -/
theorem ignorer_suppress_all_short_circuits
    (fm : String → String → Bool) (path : String) :
    (∀ (pre post : List IgnoreRule) (g : Option String),
      globApplies fm path g = true →
      Ignorer.call fm (pre ++ (g, none) :: post) path = none) ∧
    Ignorer.call fm (Ignorer.init "/" ["ALL"]) path = none := by
  constructor
  · intro pre post g hg
    exact callAux_suppress_all fm path g post hg pre []
  · have hinit : Ignorer.init "/" ["ALL"] = [(none, none)] := by decide
    rw [hinit]
    simp [Ignorer.call, callAux, globApplies]

/-- Witness for C3: a matching suppress-all rule sandwiched between other
rules, evaluated with the concrete glob matcher. -/
theorem ignorer_suppress_all_short_circuits_witness :
    globApplies pyFnmatch "x.py" (none : Option String) = true ∧
    Ignorer.call pyFnmatch
      ([(some "*.txt", some ["E101"])] ++
        ((none : Option String), (none : Option (List String))) ::
          [(none, some ["E999"])]) "x.py" = none :=
  ⟨rfl,
    (ignorer_suppress_all_short_circuits pyFnmatch "x.py").1
      [(some "*.txt", some ["E101"])] [(none, some ["E999"])] none rfl⟩

/-- Definition following the spec's words for C4's token shape: "one
uppercase letter followed by three digits". -/
def specCodeShape (s : String) : Bool :=
  match s.toList with
  | [c1, c2, c3, c4] => c1.isUpper && c2.isDigit && c3.isDigit && c4.isDigit
  | _ => false

/-- C4 counterexample: the first token `"A123"` of the line `"A123 E501"`
is one uppercase letter followed by three digits, yet the parser keeps it as
a glob (the compiled regex is `[EW]\d\d\d`, not any uppercase letter), so
the line does not become a glob-less codes list. -/
theorem code_shaped_token_becomes_glob :
    (pySplitWS (stripComment "A123 E501")).head? = some "A123" ∧
    specCodeShape "A123" = true ∧
    (parseLine "/" "A123 E501").1 = some "A123" ∧
    parseLine "/" "A123 E501" ≠
      (none, some (pySplitWS (stripComment "A123 E501"))) := by
  refine ⟨by decide, by decide, by decide, by decide⟩

/-- C4 amended: for every configuration line whose first whitespace-separated
token starts with the letter `E` or `W` followed by three digits (the shape
the compiled `[EW]\d\d\d` regex matches), the parsed rule has no glob and its
codes are the tokens of the whole comment-stripped line (with `ALL` still
turning the list into the suppress-all sentinel). -/
theorem ew_code_shaped_token_never_glob (sep line t : String)
    (h1 : (pySplitWS (stripComment line)).head? = some t)
    (h2 : coderexMatch t = true) :
    parseLine sep line =
      (none,
        if (pySplitWS (stripComment line)).contains "ALL" then none
        else some (pySplitWS (stripComment line))) := by
  obtain ⟨rest, hr⟩ : ∃ rest, pySplitWS (stripComment line) = t :: rest := by
    cases h : pySplitWS (stripComment line) with
    | nil => rw [h] at h1; exact absurd h1 (by simp)
    | cons a as =>
      rw [h] at h1
      simp only [List.head?_cons, Option.some.injEq] at h1
      exact ⟨as, by rw [h1]⟩
  cases rest with
  | nil => simp [parseLine, hr]
  | cons b bs => simp [parseLine, hr, h2]

/-- Witness for C4's amended theorem at the line `"E501 *.py"`. -/
theorem ew_code_shaped_token_never_glob_witness :
    (pySplitWS (stripComment "E501 *.py")).head? = some "E501" ∧
    coderexMatch "E501" = true ∧
    parseLine "/" "E501 *.py" = (none, some ["E501", "*.py"]) :=
  ⟨by decide, by decide,
    (ew_code_shaped_token_never_glob "/" "E501 *.py" "E501" (by decide)
      (by decide)).trans (by decide)⟩

/-- Definition following the spec's words for C5's expected result: the
concatenation, in rule order, of the codes of every rule whose glob is
absent or matches the path. -/
def specMatchingCodes (fm : String → String → Bool) (path : String) :
    List IgnoreRule → List String
  | [] => []
  | (glob, ign) :: rest =>
    if globApplies fm path glob then
      ign.getD [] ++ specMatchingCodes fm path rest
    else specMatchingCodes fm path rest

theorem callAux_accumulates (fm : String → String → Bool) (path : String) :
    ∀ (rules : List IgnoreRule) (acc : List String),
      (∀ r ∈ rules, globApplies fm path r.1 = true → r.2 ≠ none) →
      callAux fm path rules acc = some (acc ++ specMatchingCodes fm path rules) := by
  intro rules
  induction rules with
  | nil => intro acc _; simp [callAux, specMatchingCodes]
  | cons r rest ih =>
    intro acc h
    obtain ⟨glob, ign⟩ := r
    by_cases hm : globApplies fm path glob = true
    · cases ign with
      | none => exact absurd rfl (h (glob, none) (List.mem_cons_self _ _) hm)
      | some codes =>
        rw [show callAux fm path ((glob, some codes) :: rest) acc =
            callAux fm path rest (acc ++ codes) by simp [callAux, hm]]
        rw [ih (acc ++ codes) (fun r hr => h r (List.mem_cons_of_mem _ hr))]
        simp [specMatchingCodes, hm]
    · rw [show callAux fm path ((glob, ign) :: rest) acc =
          callAux fm path rest acc by simp [callAux, hm]]
      rw [ih acc (fun r hr => h r (List.mem_cons_of_mem _ hr))]
      simp [specMatchingCodes, hm]

/-- C5: when no rule that applies to the path is suppress-all,
`Ignorer.__call__` returns exactly the in-order concatenation of the codes
of the applicable rules (duplicates preserved, empty when nothing applies);
concretely, the line `"*.py E501 W293"` yields `["E501", "W293"]` for
`"foo.py"` and `[]` for `"foo.txt"`, and duplicated rules keep duplicated
codes. -/
theorem ignorer_accumulates_matching_codes
    (fm : String → String → Bool) (path : String) (rules : List IgnoreRule)
    (h : ∀ r ∈ rules, globApplies fm path r.1 = true → r.2 ≠ none) :
    Ignorer.call fm rules path = some (specMatchingCodes fm path rules) ∧
    Ignorer.call pyFnmatch (Ignorer.init "/" ["*.py E501 W293"]) "foo.py" =
      some ["E501", "W293"] ∧
    Ignorer.call pyFnmatch (Ignorer.init "/" ["*.py E501 W293"]) "foo.txt" =
      some [] ∧
    Ignorer.call pyFnmatch (Ignorer.init "/" ["E501", "E501"]) "x.py" =
      some ["E501", "E501"] := by
  refine ⟨?_, by decide, by decide, by decide⟩
  exact callAux_accumulates fm path rules [] h

/-- Witness for C5 with the spec's own scenario line. -/
theorem ignorer_accumulates_matching_codes_witness :
    Ignorer.call pyFnmatch (Ignorer.init "/" ["*.py E501 W293"]) "foo.py" =
      some (specMatchingCodes pyFnmatch "foo.py"
        (Ignorer.init "/" ["*.py E501 W293"])) :=
  (ignorer_accumulates_matching_codes pyFnmatch "foo.py"
    (Ignorer.init "/" ["*.py E501 W293"]) (by decide)).1

/-! ### Remaining claims -/

/-- C8: `check_file` sets the engine's `ignore` option to exactly the
per-task directive when the directive is present (a non-empty list — the
source tests Python truthiness); an empty directive leaves the engine's own
configured ignore list untouched. -/
theorem check_file_ignore_override (opts : AppOptions) (ign : List String) :
    (ign ≠ [] →
      check_file_ignore opts ign = { opts with ignore := ign }) ∧
    (ign = [] → check_file_ignore opts ign = opts) := by
  constructor <;> intro h <;> simp [check_file_ignore, h]

/-- Witness for C8: a non-empty directive overrides, an empty one does not. -/
theorem check_file_ignore_override_witness :
    check_file_ignore ⟨["E999"]⟩ ["E501"] = ⟨["E501"]⟩ ∧
    check_file_ignore ⟨["E999"]⟩ [] = ⟨["E999"]⟩ :=
  ⟨(check_file_ignore_override ⟨["E999"]⟩ ["E501"]).1 (by decide),
    (check_file_ignore_override ⟨["E999"]⟩ []).2 rfl⟩

/-- C9: `pytest_collect_file` produces a `Flake8Item` exactly when the
`--flake8` flag is set, the path's extension is among the configured
extensions, and the ignore matcher does not answer with the skip sentinel;
a skip-sentinel answer produces no item at all. -/
theorem collect_iff_enabled_ext_and_not_skipped
    (fm : String → String → Bool) (cfg : CollectConfig) (path : PyPath) :
    (pytest_collect_file fm cfg path).isSome ↔
      (cfg.flake8 = true ∧ path.ext ∈ cfg.exts ∧
        Ignorer.call fm cfg.rules path.toStr ≠ none) := by
  by_cases hext : path.ext ∈ cfg.exts
  · have hc : cfg.exts.contains path.ext = true := List.elem_iff.mpr hext
    cases hflag : cfg.flake8 <;>
      cases hcall : Ignorer.call fm cfg.rules path.toStr <;>
      simp [pytest_collect_file, hc, hflag, hcall, hext]
  · have hc : cfg.exts.contains path.ext = false := by
      cases hcb : cfg.exts.contains path.ext
      · rfl
      · exact absurd (List.elem_iff.mp hcb) hext
    cases hflag : cfg.flake8 <;>
      cases hcall : Ignorer.call fm cfg.rules path.toStr <;>
      simp [pytest_collect_file, hc, hflag, hcall, hext]

/-- C10: when `runtest` fails with a lint-violation payload, the rendered
failure report is exactly the captured standard output (`args[0]` of the
`Flake8Error`); the captured standard error, although carried in the
payload, does not appear in the rendering. -/
theorem repr_failure_renders_stdout_only
    (cache : CacheMap) (path : String) (mtime : Int) (ign : List String)
    (out err : String) (n : Nat) (h : n ≠ 0) :
    runtest cache path mtime ign ⟨out, err, n⟩ = .error (out, err) ∧
    repr_failure (.flake8Error out err) = out ∧
    ∀ err2 : String,
      repr_failure (.flake8Error out err2) =
        repr_failure (.flake8Error out err) := by
  exact ⟨by simp [runtest, h], rfl, fun _ => rfl⟩

/-- Witness for C10 at a concrete failing check. -/
theorem repr_failure_renders_stdout_only_witness :
    runtest [] "a.py" 5 ["E501"] ⟨"diag", "stderr noise", 3⟩ =
      .error ("diag", "stderr noise") ∧
    repr_failure (.flake8Error "diag" "stderr noise") = "diag" :=
  ⟨(repr_failure_renders_stdout_only [] "a.py" 5 ["E501"] "diag"
      "stderr noise" 3 (by decide)).1,
    (repr_failure_renders_stdout_only [] "a.py" 5 ["E501"] "diag"
      "stderr noise" 3 (by decide)).2.1⟩

end PytestFlake8
